import Mathlib

/-!
Verification development for the Contract_Analyzer repository.

The repository's core (src/modules/nlp_engine.py and src/modules/risk_analyzer.py)
is a rule-based text analysis pipeline built on Python regular expressions.
This file gives a shallow embedding of that core:

* a small executable regular-expression engine over `List Char` that reproduces
  Python's backtracking semantics (leftmost-first alternation, greedy
  quantifiers, capture groups, word boundaries) for exactly the pattern
  constructs that occur in the repository's pattern catalog;
* direct translations of `extract_entities`, `classify_clauses`,
  `detect_ambiguous_terms`, `analyze_contract` and `check_indian_compliance`.

Modelling notes, recorded once here:
* Python's `str.strip` and the regex class `\s` are modelled over the ASCII
  whitespace characters (space, tab, newline, carriage return, vertical tab,
  form feed); the repository's patterns and texts are ASCII.
* Python's `str.lower` and `re.IGNORECASE` are modelled by ASCII
  `Char.toLower`; under `IGNORECASE` the class `[A-Z]` matches both cases,
  which is modelled by `Char.isAlpha`.
* `list(set(xs))` (whose ordering Python leaves unspecified) is modelled by
  first-occurrence deduplication; the claims about these sets are
  membership/emptiness claims, which are order-independent.
* The engine's `star` iterates only while the body consumes at least one
  character.  Every starred subpattern in the catalog is non-nullable, so this
  agrees with Python.  Recursion is paced by a fuel argument that strictly
  exceeds the deepest possible call chain for the catalog's patterns, so the
  fuel never runs out on them.
-/

set_option maxRecDepth 100000
set_option maxHeartbeats 4000000

/-- ASCII whitespace, the characters stripped by Python's `str.strip` and
matched by `\s` on the repository's ASCII inputs. -/
def isPySpace (c : Char) : Bool :=
  c = ' ' || c = '\t' || c = '\n' || c = '\r' || c = '\x0b' || c = '\x0c'

/-- Regular expressions, covering exactly the constructs used by the
repository's pattern catalog.  `chr` carries the character class as a
predicate; `group n` is capture group number `n`; `bound` is `\b`. -/
inductive RE where
  | eps : RE
  | chr (p : Char → Bool) : RE
  | seq (a b : RE) : RE
  | alt (a b : RE) : RE
  | star (a : RE) : RE
  | group (n : Nat) (a : RE) : RE
  | bound : RE

/-- Matcher state: `rev` is the already-consumed text reversed (so the
character just before the current position is `rev.head?`), `rest` is the
text still to be consumed, `caps` the captures recorded so far. -/
structure MState where
  rev : List Char
  rest : List Char
  caps : List (Nat × List Char)

/-- Word characters for `\b`: `[a-zA-Z0-9_]`. -/
def isWordChar (c : Char) : Bool := c.isAlphanum || c = '_'

def isWordOpt : Option Char → Bool
  | none => false
  | some c => isWordChar c

/-- `\b` holds between a word character and a non-word character (or a text
edge). -/
def wordBoundary (a b : Option Char) : Bool := isWordOpt a != isWordOpt b

/-- All ways a regex can match a prefix of `s.rest`, as successor states in
Python's backtracking priority order: alternation is leftmost-first, `star`
is greedy (longer iterations first) and iterates only with progress.  The
head of the returned list is the match Python's engine reports. -/
def reMatches : Nat → RE → MState → List MState
  | _, RE.eps, s => [s]
  | _, RE.chr p, s =>
      match s.rest with
      | [] => []
      | c :: t => if p c then [⟨c :: s.rev, t, s.caps⟩] else []
  | fuel, RE.seq a b, s =>
      match fuel with
      | 0 => []
      | f + 1 => (reMatches f a s).flatMap (reMatches f b)
  | fuel, RE.alt a b, s =>
      match fuel with
      | 0 => []
      | f + 1 => reMatches f a s ++ reMatches f b s
  | fuel, RE.star a, s =>
      (match fuel with
       | 0 => []
       | f + 1 =>
          ((reMatches f a s).filter (fun t => t.rest.length < s.rest.length)).flatMap
            (reMatches f (RE.star a))) ++ [s]
  | fuel, RE.group n a, s =>
      match fuel with
      | 0 => []
      | f + 1 =>
          (reMatches f a s).map (fun t =>
            ⟨t.rev, t.rest,
             (t.caps.filter (fun e => e.1 ≠ n)) ++
               [(n, (t.rev.take (t.rev.length - s.rev.length)).reverse)]⟩)
  | _, RE.bound, s => if wordBoundary s.rev.head? s.rest.head? then [s] else []

/-- Fuel that strictly dominates the call depth of `reMatches` on the
catalog's patterns for a text of length `n`. -/
def matchFuel (n : Nat) : Nat := (n + 2) * 400

/-- The match Python's engine reports when the pattern is anchored at the
current position, if any. -/
def reFirst (re : RE) (rev rest : List Char) : Option MState :=
  (reMatches (matchFuel rest.length) re ⟨rev, rest, []⟩).head?

/-- One scan result: match start offset, match length, captures. -/
structure ScanM where
  pos : Nat
  len : Nat
  caps : List (Nat × List Char)

/-- The scanning loop shared by `re.findall` / `re.finditer`: try the pattern
at each position from left to right; on a match, record it and continue at
its end (one past it for an empty match). -/
def scanAux : Nat → RE → List Char → List Char → Nat → List ScanM
  | 0, _, _, _, _ => []
  | f + 1, re, rev, rest, pos =>
      match reFirst re rev rest with
      | some st =>
          let len := rest.length - st.rest.length
          let d := max len 1
          ⟨pos, len, st.caps⟩ ::
            (if rest.isEmpty then []
             else scanAux f re ((rest.take d).reverse ++ rev) (rest.drop d) (pos + d))
      | none =>
          match rest with
          | [] => []
          | c :: t => scanAux f re (c :: rev) t (pos + 1)

/-- All non-overlapping matches of `re` in `text`, leftmost first. -/
def pyScan (re : RE) (text : List Char) : List ScanM :=
  scanAux (text.length + 2) re [] text 0

/-- Python slice `text[a:b]` (on the repository's non-negative clamped
indices). -/
def sliceL (cs : List Char) (a b : Nat) : List Char := (cs.take b).drop a

/-- Captured text of group `n`, `""` when the group did not participate. -/
def capGet (caps : List (Nat × List Char)) (n : Nat) : List Char :=
  ((caps.find? (fun e => e.1 = n)).map Prod.snd).getD []

/-- `re.findall` combined with the flattening done at
src/modules/nlp_engine.py lines 44-48: with no groups each match contributes
its whole text; with one group, the group's text; with `g ≥ 2` groups each
match contributes its non-empty group texts (the tuple case). -/
def findallFlat (re : RE) (g : Nat) (text : List Char) : List (List Char) :=
  (pyScan re text).flatMap (fun m =>
    if g = 0 then [sliceL text m.pos (m.pos + m.len)]
    else if g = 1 then [capGet m.caps 1]
    else ((List.range g).map (fun i => capGet m.caps (i + 1))).filter
      (fun s => !s.isEmpty))

/-- Truthiness of `re.search`. -/
def reSearch (re : RE) (text : List Char) : Bool := !(pyScan re text).isEmpty

/- Pattern combinators used to transcribe the catalog. -/

def rchr (c : Char) : RE := RE.chr (fun x => x = c)

/-- A literal character under `re.IGNORECASE`. -/
def richr (c : Char) : RE := RE.chr (fun x => x.toLower = c.toLower)

def rseq (l : List RE) : RE := l.foldr RE.seq RE.eps

/-- A case-sensitive literal string. -/
def rstr (s : String) : RE := rseq (s.data.map rchr)

/-- A literal string under `re.IGNORECASE`. -/
def ristr (s : String) : RE := rseq (s.data.map richr)

/-- Alternation, leftmost-first. -/
def ralt : List RE → RE
  | [] => RE.eps
  | [a] => a
  | a :: rest => RE.alt a (ralt rest)

def rplus (a : RE) : RE := RE.seq a (RE.star a)

/-- Greedy `?`. -/
def ropt (a : RE) : RE := RE.alt a RE.eps

def rwsp : RE := RE.chr isPySpace
def rdigit : RE := RE.chr Char.isDigit
def rdot : RE := RE.chr (fun c => c ≠ '\n')
def rword : RE := RE.chr isWordChar
def rUpper : RE := RE.chr Char.isUpper
def rLower : RE := RE.chr Char.isLower

/-- `[A-Z]` under `re.IGNORECASE` matches letters of both cases. -/
def riAlpha : RE := RE.chr Char.isAlpha

/-! ## Pattern catalog

Transcriptions of the regular expressions in `LegalNLPEngine.__init__`
(src/modules/nlp_engine.py lines 7-17), `LegalNLPEngine.extract_entities`
(line 37), `RiskAnalyzer.__init__` (src/modules/risk_analyzer.py lines 8-63)
and `RiskAnalyzer.check_indian_compliance` (lines 122-127).  Counted
quantifiers are expanded (greedy, so longer alternatives first); capture
groups are kept only where `re.findall` consumes them (the risk and
compliance scans use `match.group(0)` / truthiness only, so groups there are
transcribed as plain subpatterns, which match identically). -/

/-- `(?i)(party|company|firm|organization)\s+[A-Z][a-zA-Z\s&,\.]+` -/
def partyRE1 : RE :=
  rseq [RE.group 1 (ralt [ristr "party", ristr "company", ristr "firm", ristr "organization"]),
        rplus rwsp, riAlpha,
        rplus (RE.chr (fun c => c.isAlpha || isPySpace c || c = '&' || c = ',' || c = '.'))]

/-- `(?i)(hereinafter referred to as|referred to as)\s+"([^"]+)"` -/
def partyRE2 : RE :=
  rseq [RE.group 1 (ralt [ristr "hereinafter referred to as", ristr "referred to as"]),
        rplus rwsp, rchr '"',
        RE.group 2 (rplus (RE.chr (fun c => c ≠ '"'))), rchr '"']

/-- `(?i)(rs\.?|inr|rupees)\s*[\d,]+(?:\.\d{2})?` -/
def amountRE1 : RE :=
  rseq [RE.group 1 (ralt [RE.seq (ristr "rs") (ropt (rchr '.')), ristr "inr", ristr "rupees"]),
        RE.star rwsp,
        rplus (RE.chr (fun c => c.isDigit || c = ',')),
        ropt (rseq [rchr '.', rdigit, rdigit])]

/-- `â‚¹\s*[\d,]+(?:\.\d{2})?` (the source file's mojibake rupee sign,
transcribed verbatim). -/
def amountRE2 : RE :=
  rseq [rstr "â‚¹",
        RE.star rwsp,
        rplus (RE.chr (fun c => c.isDigit || c = ',')),
        ropt (rseq [rchr '.', rdigit, rdigit])]

/-- `(?i)\d+\s*(lakh|crore|thousand)` -/
def amountRE3 : RE :=
  rseq [rplus rdigit, RE.star rwsp,
        RE.group 1 (ralt [ristr "lakh", ristr "crore", ristr "thousand"])]

/-- The numeric date pattern: one or two digits, a slash-or-dash class,
one or two digits, a slash-or-dash class, then two to four digits. -/
def dateRE1 : RE :=
  rseq [rdigit, ropt rdigit, RE.chr (fun c => c = '/' || c = '-'),
        rdigit, ropt rdigit, RE.chr (fun c => c = '/' || c = '-'),
        rdigit, rdigit, ropt rdigit, ropt rdigit]

/-- `(?i)(january|...|december)\s+\d{1,2},?\s+\d{4}` -/
def dateRE2 : RE :=
  rseq [RE.group 1 (ralt [ristr "january", ristr "february", ristr "march", ristr "april",
                          ristr "may", ristr "june", ristr "july", ristr "august",
                          ristr "september", ristr "october", ristr "november", ristr "december"]),
        rplus rwsp, rdigit, ropt rdigit, ropt (rchr ','), rplus rwsp,
        rdigit, rdigit, rdigit, rdigit]

/-- `(?i)\d+\s*(days?|weeks?|months?|years?)` -/
def durationRE1 : RE :=
  rseq [rplus rdigit, RE.star rwsp,
        RE.group 1 (ralt [RE.seq (ristr "day") (ropt (richr 's')),
                          RE.seq (ristr "week") (ropt (richr 's')),
                          RE.seq (ristr "month") (ropt (richr 's')),
                          RE.seq (ristr "year") (ropt (richr 's'))])]

/-- `(?i)(term of|period of)\s+\d+\s*(days?|months?|years?)` -/
def durationRE2 : RE :=
  rseq [RE.group 1 (ralt [ristr "term of", ristr "period of"]),
        rplus rwsp, rplus rdigit, RE.star rwsp,
        RE.group 2 (ralt [RE.seq (ristr "day") (ropt (richr 's')),
                          RE.seq (ristr "month") (ropt (richr 's')),
                          RE.seq (ristr "year") (ropt (richr 's'))])]

/-- `\b[A-Z][a-z]+(?:\s+[A-Z][a-z]+)*\s+(?:Ltd|Limited|Inc|Corp|Company|Pvt)\b`
(case-sensitive: no `(?i)` on this pattern). -/
def orgRE : RE :=
  rseq [RE.bound, rUpper, rplus rLower,
        RE.star (rseq [rplus rwsp, rUpper, rplus rLower]),
        rplus rwsp,
        ralt [rstr "Ltd", rstr "Limited", rstr "Inc", rstr "Corp", rstr "Company", rstr "Pvt"],
        RE.bound]

/-- `self.legal_patterns` with each pattern's capture-group count, in the
source's insertion order. -/
def legal_patterns : List (String × List (RE × Nat)) :=
  [("party", [(partyRE1, 1), (partyRE2, 2)]),
   ("amount", [(amountRE1, 1), (amountRE2, 0), (amountRE3, 1)]),
   ("date", [(dateRE1, 0), (dateRE2, 1)]),
   ("duration", [(durationRE1, 1), (durationRE2, 2)])]

/-! ## String helpers shared by the components -/

/-- Python's `str.strip()` (ASCII whitespace). -/
def pyStrip (cs : List Char) : List Char :=
  ((cs.dropWhile isPySpace).reverse.dropWhile isPySpace).reverse

/-- Python's `str.lower()` (ASCII). -/
def lowerL (cs : List Char) : List Char := cs.map Char.toLower

/-- Substring test, Python's `needle in hay`. -/
def containsL (needle : List Char) : List Char → Bool
  | [] => needle.isPrefixOf []
  | c :: t => needle.isPrefixOf (c :: t) || containsL needle t

/-- `re.split(r'[.!?]+', text)` modulo empty fragments: splitting at every
single delimiter yields the same list as splitting at delimiter runs once
empty fragments are discarded, and both components discard them. -/
def splitRawAux : List Char → List Char → List (List Char)
  | [], acc => [acc.reverse]
  | c :: t, acc =>
      if c = '.' || c = '!' || c = '?' then acc.reverse :: splitRawAux t []
      else splitRawAux t (c :: acc)

def splitRaw (cs : List Char) : List (List Char) := splitRawAux cs []

/-- The sentence segmentation shared by `classify_clauses` and
`detect_ambiguous_terms` (src/modules/nlp_engine.py lines 56-57 and 88-89):
split on `[.!?]+`, strip, drop empties. -/
def pySentences (cs : List Char) : List (List Char) :=
  ((splitRaw cs).map pyStrip).filter (fun s => !s.isEmpty)

/-- Python's `list(set(xs))`, modelled as first-occurrence deduplication. -/
def pyUnique (l : List String) : List String :=
  l.foldl (fun acc x => if acc.contains x then acc else acc ++ [x]) []

/-! ## LegalNLPEngine -/

/-- The result dictionary shape built by `extract_entities`
(src/modules/nlp_engine.py lines 26-33): five fixed top-level keys plus the
nested `custom` mapping. -/
structure Entities where
  organizations : List String
  persons : List String
  dates : List String
  money : List String
  locations : List String
  custom : List (String × List String)
deriving DecidableEq

/-- `LegalNLPEngine.extract_entities` (src/modules/nlp_engine.py lines 24-51). -/
def extract_entities (text : String) : Entities :=
  { organizations := pyUnique ((findallFlat orgRE 0 text.data).map String.mk)
  , persons := []
  , dates := []
  , money := []
  , locations := []
  , custom := legal_patterns.map (fun ep =>
      (ep.1,
       pyUnique ((ep.2.flatMap (fun pr => findallFlat pr.1 pr.2 text.data)).map String.mk))) }

def obligation_markers : List String :=
  ["shall", "must", "required to", "obligated to", "agrees to"]

def right_markers : List String :=
  ["may", "entitled to", "has the right to", "permitted to"]

def prohibition_markers : List String :=
  ["shall not", "must not", "prohibited from", "restricted from"]

/-- `any(marker in sent_lower for marker in markers)`. -/
def hasMarker (markers : List String) (sent : List Char) : Bool :=
  markers.any (fun m => containsL m.data (lowerL sent))

structure ClassifiedClauses where
  obligations : List String
  rights : List String
  prohibitions : List String
deriving DecidableEq

/-- The body of the sentence loop in `classify_clauses`
(src/modules/nlp_engine.py lines 65-76): prohibitions first, then
obligations, then rights; unmatched sentences are dropped. -/
def classifyStep (acc : ClassifiedClauses) (sent : List Char) : ClassifiedClauses :=
  if hasMarker prohibition_markers sent then
    { acc with prohibitions := acc.prohibitions ++ [String.mk sent] }
  else if hasMarker obligation_markers sent then
    { acc with obligations := acc.obligations ++ [String.mk sent] }
  else if hasMarker right_markers sent then
    { acc with rights := acc.rights ++ [String.mk sent] }
  else acc

/-- `LegalNLPEngine.classify_clauses` (src/modules/nlp_engine.py lines 53-78). -/
def classify_clauses (text : String) : ClassifiedClauses :=
  (pySentences text.data).foldl classifyStep ⟨[], [], []⟩

def ambiguous_terms : List String :=
  ["reasonable", "appropriate", "as soon as possible", "promptly",
   "substantial", "material", "best efforts", "good faith",
   "approximately", "around", "may", "might", "could"]

structure AmbiguityFlag where
  sentence : String
  terms : List String
  concern : String
deriving DecidableEq

/-- `[term for term in ambiguous_terms if term in sent_lower]`. -/
def foundTermsIn (sent : List Char) : List String :=
  ambiguous_terms.filter (fun t => containsL t.data (lowerL sent))

/-- The body of the sentence loop in `detect_ambiguous_terms`
(src/modules/nlp_engine.py lines 93-102): a sentence with at least one vague
term contributes one flag listing all its matched terms. -/
def ambiguityStep (acc : List AmbiguityFlag) (sent : List Char) : List AmbiguityFlag :=
  if (foundTermsIn sent).isEmpty then acc
  else acc ++ [{ sentence := String.mk sent
               , terms := foundTermsIn sent
               , concern := "Vague language may lead to disputes" }]

/-- `LegalNLPEngine.detect_ambiguous_terms` (src/modules/nlp_engine.py
lines 80-104). -/
def detect_ambiguous_terms (text : String) : List AmbiguityFlag :=
  (pySentences text.data).foldl ambiguityStep []

/-! ## RiskAnalyzer -/

/-- `self.risk_patterns['high']` (src/modules/risk_analyzer.py lines 9-30). -/
def risk_patterns_high : List (String × List RE) :=
  [("unlimited_liability",
    [rseq [ristr "unlimited", rplus rwsp, ristr "liability"],
     rseq [ristr "without", rplus rwsp, ristr "any", rplus rwsp, ristr "limit"],
     rseq [ristr "entire", rplus rwsp, ristr "liability"]]),
   ("unilateral_termination",
    [rseq [ralt [rseq [ristr "party", rplus rwsp,
                       RE.chr (fun c => c.toLower = 'a' || c.toLower = 'b')],
                 ristr "company",
                 rseq [ristr "first", rplus rwsp, ristr "party"]],
           rplus rwsp, ristr "may", rplus rwsp, ristr "terminate",
           RE.star rdot, ristr "without", rplus rwsp,
           ralt [ristr "notice", ristr "cause"]],
     rseq [ristr "terminate", rplus rwsp, ristr "at", rplus rwsp, ristr "will"],
     rseq [ristr "sole", rplus rwsp, ristr "discretion", RE.star rdot, ristr "terminate"]]),
   ("ip_transfer",
    [rseq [ristr "all", rplus rwsp, ristr "intellectual", rplus rwsp, ristr "property",
           RE.star rdot, ristr "transferred"],
     rseq [ristr "ownership", RE.star rdot, ristr "vests", RE.star rdot, ristr "exclusively"],
     rseq [ristr "irrevocable", RE.star rdot, ristr "assignment", RE.star rdot, ristr "ip"]]),
   ("non_compete_broad",
    [rseq [ristr "non-compete", RE.star rdot, rplus rdigit, rplus rwsp,
           ralt [ristr "years", ristr "year"]],
     rseq [ristr "not", rplus rwsp, ristr "engage", RE.star rdot, ristr "competing",
           RE.star rdot, ristr "business"],
     rseq [ristr "restricted", RE.star rdot, ristr "similar", RE.star rdot, ristr "activity"]])]

/-- `self.risk_patterns['medium']` (src/modules/risk_analyzer.py lines 31-52). -/
def risk_patterns_medium : List (String × List RE) :=
  [("auto_renewal",
    [rseq [ristr "automatically", rplus rwsp, ristr "renewe", ropt (richr 'd')],
     ristr "auto-renewal",
     rseq [ristr "unless", RE.star rdot, ristr "notice", RE.star rdot, rplus rdigit,
           rplus rwsp, ristr "days", RE.star rdot, ristr "renew"]]),
   ("penalty_clause",
    [rseq [ristr "penalty", RE.star rdot, rchr 'â', rchr '‚', ropt (rchr '¹'), rplus rdigit],
     rseq [ristr "liquidated", rplus rwsp, ristr "damages"],
     rseq [ristr "shall", rplus rwsp, ristr "pay", RE.star rdot, ristr "breach"]]),
   ("jurisdiction_limited",
    [rseq [ristr "exclusive", rplus rwsp, ristr "jurisdiction"],
     rseq [ristr "court", ropt (richr 's'), rplus rwsp, ristr "at", rplus rwsp,
           rplus rword, rplus rwsp, ristr "only"],
     rseq [ristr "subject", rplus rwsp, ristr "to", RE.star rdot, ristr "jurisdiction",
           RE.star rdot, rplus rword]]),
   ("indemnity_broad",
    [rseq [ristr "indemnify", RE.star rdot, ristr "hold", rplus rwsp, ristr "harmless"],
     rseq [ristr "defend", RE.star rdot, ristr "against", rplus rwsp, ristr "any",
           rplus rwsp, ristr "claim", ropt (richr 's')],
     rseq [ristr "indemnification", RE.star rdot, ristr "losses"]])]

/-- `self.risk_patterns['low']` (src/modules/risk_analyzer.py lines 53-62). -/
def risk_patterns_low : List (String × List RE) :=
  [("notice_period",
    [rseq [rplus rdigit, rplus rwsp, ristr "day", ropt (richr 's'), rplus rwsp, ristr "notice"],
     rseq [ristr "notice", rplus rwsp, ristr "period", RE.star rdot, rplus rdigit]]),
   ("confidentiality",
    [rseq [ristr "confidential", rplus rwsp, ristr "information"],
     ristr "non-disclosure"])]

structure RiskFinding where
  category : String
  matched_text : String
  context : String
  position : Nat
deriving DecidableEq

structure RiskReport where
  high : List RiskFinding
  medium : List RiskFinding
  low : List RiskFinding
  composite_score : Nat
  level : String
  recommendation : String
deriving DecidableEq

/-- The finding built for one regex match (src/modules/risk_analyzer.py
lines 81-91): context is `text[max(0, start-50) : min(len(text), end+50)]`,
position is `match.start()`, matched text is `match.group(0)`. -/
def mkFinding (text : List Char) (cat : String) (m : ScanM) : RiskFinding :=
  { category := cat
  , matched_text := String.mk (sliceL text m.pos (m.pos + m.len))
  , context := String.mk (sliceL text (m.pos - 50) (min text.length (m.pos + m.len + 50)))
  , position := m.pos }

/-- The findings accumulated for one severity tier: categories in catalog
order, patterns in list order, matches in text order. -/
def tierFindings (tbl : List (String × List RE)) (text : List Char) : List RiskFinding :=
  tbl.flatMap (fun cp => cp.2.flatMap (fun re => (pyScan re text).map (mkFinding text cp.1)))

/-- The verdict chain of src/modules/risk_analyzer.py lines 104-112. -/
def riskLevelOf (s : Nat) : String :=
  if 60 < s then "HIGH RISK" else if 30 < s then "MEDIUM RISK" else "LOW RISK"

/-- The recommendation chain of src/modules/risk_analyzer.py lines 104-112. -/
def recommendationOf (s : Nat) : String :=
  if 60 < s then "Immediate legal review recommended"
  else if 30 < s then "Review and negotiate key clauses"
  else "Standard contract with minor concerns"

/-- `RiskAnalyzer.analyze_contract` (src/modules/risk_analyzer.py
lines 65-114).  The `entities` argument is accepted and, as in the source,
never used. -/
def analyze_contract (text : String) (entities : Entities) : RiskReport :=
  let hs := tierFindings risk_patterns_high text.data
  let ms := tierFindings risk_patterns_medium text.data
  let ls := tierFindings risk_patterns_low text.data
  let total := 10 * hs.length + 5 * ms.length + 1 * ls.length
  let score := min 100 total
  { high := hs, medium := ms, low := ls, composite_score := score
  , level := riskLevelOf score, recommendation := recommendationOf score }

structure ComplianceResult where
  element : String
  status : String
  severity : String
  note : Option String
deriving DecidableEq

/-- `essential_elements` (src/modules/risk_analyzer.py lines 122-127), in
the source's insertion order. -/
def essential_elements : List (String × RE) :=
  [("consideration",
    ralt [ristr "consideration", rseq [ristr "valuable", rplus rwsp, ristr "consideration"],
          ristr "monetary", ristr "payment"]),
   ("free_consent",
    ralt [ristr "consent", ristr "agree", ristr "acceptance",
          rseq [ristr "mutual", rplus rwsp, ristr "understanding"]]),
   ("competent_parties",
    ralt [ristr "major", rseq [ristr "age", rplus rwsp, ristr "of", rplus rwsp, ristr "majority"],
          rseq [ristr "sound", rplus rwsp, ristr "mind"], ristr "competent"]),
   ("lawful_object",
    ralt [rseq [ristr "lawful", rplus rwsp, ristr "purpose"],
          rseq [ristr "legal", rplus rwsp, ristr "object"], ristr "legitimate"])]

/-- `RiskAnalyzer.check_indian_compliance` (src/modules/risk_analyzer.py
lines 116-144).  The `contract_type` argument is accepted and, as in the
source, never used. -/
def check_indian_compliance (text : String) (contract_type : String) : List ComplianceResult :=
  essential_elements.map (fun ep =>
    if reSearch ep.2 text.data then
      { element := ep.1, status := "PRESENT", severity := "none", note := none }
    else
      { element := ep.1, status := "MISSING", severity := "high"
      , note := some ("Contract should explicitly mention " ++ ep.1 ++
                      " as per Section 10, Indian Contract Act") })

/-! ## Claims -/

/-- Claim C1: for every input text (and any entities argument), the
RiskReport produced by `analyze_contract` has `composite_score` equal to
`min(100, 10*|high| + 5*|medium| + 1*|low|)`, and this score lies in
[0, 100] (the score is a natural number, so the lower bound is inherent). -/
theorem c1_composite_score_formula (text : String) (entities : Entities) :
    (analyze_contract text entities).composite_score =
      min 100 (10 * (analyze_contract text entities).high.length +
               5 * (analyze_contract text entities).medium.length +
               1 * (analyze_contract text entities).low.length) ∧
    (analyze_contract text entities).composite_score ≤ 100 :=
  ⟨rfl, Nat.min_le_left _ _⟩

/-- Claim C2: the level and recommendation of the report are determined
solely by its composite score, through the strict-threshold chains
`riskLevelOf` / `recommendationOf`; in particular a score of exactly 61 is
HIGH RISK, exactly 60 is MEDIUM RISK, and exactly 30 is LOW RISK, with the
matching recommendations. -/
theorem c2_risk_level_thresholds (text : String) (entities : Entities) :
    (analyze_contract text entities).level =
      riskLevelOf (analyze_contract text entities).composite_score ∧
    (analyze_contract text entities).recommendation =
      recommendationOf (analyze_contract text entities).composite_score ∧
    (∀ s : Nat, riskLevelOf s =
      if 60 < s then "HIGH RISK" else if 30 < s then "MEDIUM RISK" else "LOW RISK") ∧
    (∀ s : Nat, recommendationOf s =
      if 60 < s then "Immediate legal review recommended"
      else if 30 < s then "Review and negotiate key clauses"
      else "Standard contract with minor concerns") ∧
    riskLevelOf 61 = "HIGH RISK" ∧
    recommendationOf 61 = "Immediate legal review recommended" ∧
    riskLevelOf 60 = "MEDIUM RISK" ∧
    recommendationOf 60 = "Review and negotiate key clauses" ∧
    riskLevelOf 30 = "LOW RISK" ∧
    recommendationOf 30 = "Standard contract with minor concerns" :=
  ⟨rfl, rfl, fun _ => rfl, fun _ => rfl,
   by decide, by decide, by decide, by decide, by decide, by decide⟩

/-- Claim C7: `analyze_contract` gives identical output for any two values
of its `entities` argument, and `check_indian_compliance` gives identical
output for any two values of its `contract_type` argument. -/
theorem c7_unused_arguments (text : String) (e1 e2 : Entities) (t1 t2 : String) :
    analyze_contract text e1 = analyze_contract text e2 ∧
    check_indian_compliance text t1 = check_indian_compliance text t2 :=
  ⟨rfl, rfl⟩

/-- Claim C10: for every input text, `extract_entities` maps the top-level
keys `persons`, `dates`, `money` and `locations` to empty lists, and the
extracted categories appear only under the nested `custom` key, whose key
list is exactly `party`, `amount`, `date`, `duration`. -/
theorem c10_entities_shape (text : String) :
    (extract_entities text).persons = [] ∧
    (extract_entities text).dates = [] ∧
    (extract_entities text).money = [] ∧
    (extract_entities text).locations = [] ∧
    (extract_entities text).custom.map Prod.fst = ["party", "amount", "date", "duration"] :=
  ⟨rfl, rfl, rfl, rfl, by simp [extract_entities, legal_patterns]⟩

/-- Claim C5: on the empty input string every core component returns a
well-formed empty result (the embedding is by total functions, so no
exception can arise): `extract_entities` returns every category present but
empty, `classify_clauses` and `detect_ambiguous_terms` return empty
sequences, and `analyze_contract` (for any entities argument) returns empty
finding lists, composite score 0, and LOW RISK. -/
theorem c5_empty_input_results (e : Entities) :
    extract_entities "" =
      { organizations := [], persons := [], dates := [], money := [], locations := []
      , custom := [("party", []), ("amount", []), ("date", []), ("duration", [])] } ∧
    classify_clauses "" = { obligations := [], rights := [], prohibitions := [] } ∧
    detect_ambiguous_terms "" = [] ∧
    analyze_contract "" e =
      { high := [], medium := [], low := [], composite_score := 0
      , level := "LOW RISK", recommendation := "Standard contract with minor concerns" } :=
  ⟨by decide, by decide, by decide, rfl⟩

/-- Claim C4, counterexample: on the scenario text, the obligations class
does not contain the first sentence of the text — the sentence splitter
treats the period of the abbreviation `Rs.` as a sentence delimiter, so the
obligations class holds only the truncated fragment `Party A shall pay Rs`;
moreover the amount entity set holds only the captured currency marker `Rs.`
(not an `Rs. 50,000`-style value) and the duration entity set holds only the
captured unit `days` (not a `30 days` match). -/
theorem c4_scenario_counterexample :
    (classify_clauses "Party A shall pay Rs. 50,000 within 30 days. Party A shall not disclose confidential information.").obligations
      = ["Party A shall pay Rs"] ∧
    "Party A shall pay Rs. 50,000 within 30 days" ∉
      (classify_clauses "Party A shall pay Rs. 50,000 within 30 days. Party A shall not disclose confidential information.").obligations ∧
    "Party A shall pay Rs. 50,000 within 30 days." ∉
      (classify_clauses "Party A shall pay Rs. 50,000 within 30 days. Party A shall not disclose confidential information.").obligations ∧
    ("amount", ["Rs."]) ∈
      (extract_entities "Party A shall pay Rs. 50,000 within 30 days. Party A shall not disclose confidential information.").custom ∧
    ("duration", ["days"]) ∈
      (extract_entities "Party A shall pay Rs. 50,000 within 30 days. Party A shall not disclose confidential information.").custom := by
  decide

/-- Claim C4 as amended: on the scenario text the obligations class contains
the fragment `Party A shall pay Rs` (the first sentence truncated at the
abbreviation period), the prohibitions class contains the second sentence
(without its trailing period), the amount entity set is the entry
`["Rs."]` (the captured currency marker), and the duration entity set is the
entry `["days"]` (the captured unit). -/
theorem c4_scenario_amended :
    "Party A shall pay Rs" ∈
      (classify_clauses "Party A shall pay Rs. 50,000 within 30 days. Party A shall not disclose confidential information.").obligations ∧
    (classify_clauses "Party A shall pay Rs. 50,000 within 30 days. Party A shall not disclose confidential information.").prohibitions
      = ["Party A shall not disclose confidential information"] ∧
    ("amount", ["Rs."]) ∈
      (extract_entities "Party A shall pay Rs. 50,000 within 30 days. Party A shall not disclose confidential information.").custom ∧
    ("duration", ["days"]) ∈
      (extract_entities "Party A shall pay Rs. 50,000 within 30 days. Party A shall not disclose confidential information.").custom := by
  decide

/-! ### Clause classification and ambiguity detection (claims C3, C9) -/


lemma ambiguity_foldl (sents : List (List Char)) (acc : List AmbiguityFlag) :
    sents.foldl ambiguityStep acc
      = acc ++ (sents.filter (fun s => !(foundTermsIn s).isEmpty)).map (fun s =>
          { sentence := String.mk s, terms := foundTermsIn s
          , concern := "Vague language may lead to disputes" }) := by
  induction sents generalizing acc with
  | nil => simp
  | cons s t ih =>
      simp only [List.foldl_cons, List.filter_cons]
      cases h : (foundTermsIn s).isEmpty with
      | true => simp [ambiguityStep, h, ih]
      | false => simp [ambiguityStep, h, ih]

lemma classify_foldl (sents : List (List Char)) (acc : ClassifiedClauses) :
    ((sents.foldl classifyStep acc).prohibitions
        = acc.prohibitions ++
            ((sents.filter (fun s => hasMarker prohibition_markers s)).map String.mk)) ∧
    ((sents.foldl classifyStep acc).obligations
        = acc.obligations ++
            ((sents.filter (fun s =>
                !hasMarker prohibition_markers s && hasMarker obligation_markers s)).map
              String.mk)) ∧
    ((sents.foldl classifyStep acc).rights
        = acc.rights ++
            ((sents.filter (fun s =>
                !hasMarker prohibition_markers s && !hasMarker obligation_markers s &&
                  hasMarker right_markers s)).map String.mk)) := by
  induction sents generalizing acc with
  | nil => simp
  | cons s t ih =>
      simp only [List.foldl_cons, List.filter_cons]
      cases hP : hasMarker prohibition_markers s with
      | true =>
          rcases ih { acc with prohibitions := acc.prohibitions ++ [String.mk s] } with
            ⟨i1, i2, i3⟩
          simp [classifyStep, hP, i1, i2, i3]
      | false =>
          cases hO : hasMarker obligation_markers s with
          | true =>
              rcases ih { acc with obligations := acc.obligations ++ [String.mk s] } with
                ⟨i1, i2, i3⟩
              simp [classifyStep, hP, hO, i1, i2, i3]
          | false =>
              cases hR : hasMarker right_markers s with
              | true =>
                  rcases ih { acc with rights := acc.rights ++ [String.mk s] } with
                    ⟨i1, i2, i3⟩
                  simp [classifyStep, hP, hO, hR, i1, i2, i3]
              | false =>
                  rcases ih acc with ⟨i1, i2, i3⟩
                  simp [classifyStep, hP, hO, hR, i1, i2, i3]

lemma dropWhile_head_not (p : Char → Bool) (l : List Char) (x : Char) (r : List Char)
    (h : l.dropWhile p = x :: r) : p x = false := by
  induction l with
  | nil => simp [List.dropWhile] at h
  | cons c t ih =>
      rw [List.dropWhile_cons] at h
      by_cases hc : p c = true
      · rw [if_pos hc] at h
        exact ih h
      · rw [if_neg hc] at h
        injection h with h1 h2
        subst h1
        simpa using hc

lemma pyStrip_eq_rdropWhile (cs : List Char) :
    pyStrip cs = List.rdropWhile isPySpace (cs.dropWhile isPySpace) := rfl

lemma pyStrip_idem (cs : List Char) : pyStrip (pyStrip cs) = pyStrip cs := by
  rw [pyStrip_eq_rdropWhile, pyStrip_eq_rdropWhile]
  have key : (List.rdropWhile isPySpace (cs.dropWhile isPySpace)).dropWhile isPySpace
      = List.rdropWhile isPySpace (cs.dropWhile isPySpace) := by
    rcases hr : List.rdropWhile isPySpace (cs.dropWhile isPySpace) with _ | ⟨x, r'⟩
    · rfl
    · obtain ⟨t, ht⟩ := List.rdropWhile_prefix isPySpace (cs.dropWhile isPySpace)
      rw [hr] at ht
      have hx : isPySpace x = false := by
        apply dropWhile_head_not isPySpace cs x (r' ++ t)
        rw [← ht]
        rfl
      simp [List.dropWhile_cons, hx]
  rw [key, List.rdropWhile_idempotent]

lemma pySentences_strip (cs : List Char) :
    ∀ s ∈ pySentences cs, pyStrip s = s ∧ s ≠ [] := by
  intro s hs
  unfold pySentences at hs
  rw [List.mem_filter] at hs
  rcases hs with ⟨hmem, hne⟩
  rw [List.mem_map] at hmem
  rcases hmem with ⟨r, _, rfl⟩
  refine ⟨pyStrip_idem r, ?_⟩
  simpa using hne

/-- Claim C3: `classify_clauses` works on the sentences produced by
splitting on runs of `.`/`!`/`?`, trimming and dropping empty fragments
(each produced sentence is trimmed and non-empty); each sentence lands in at
most one class with first-match-wins priority prohibition > obligation >
right under substring marker matching on the lower-cased sentence, so a
sentence with both a prohibition and an obligation marker is a prohibition
only, and a sentence matching no marker appears in no class. -/
theorem c3_classify_first_match (text : String) :
    ((classify_clauses text).prohibitions
      = ((pySentences text.data).filter (fun s => hasMarker prohibition_markers s)).map
          String.mk) ∧
    ((classify_clauses text).obligations
      = ((pySentences text.data).filter (fun s =>
          !hasMarker prohibition_markers s && hasMarker obligation_markers s)).map
          String.mk) ∧
    ((classify_clauses text).rights
      = ((pySentences text.data).filter (fun s =>
          !hasMarker prohibition_markers s && !hasMarker obligation_markers s &&
            hasMarker right_markers s)).map String.mk) ∧
    ∀ s ∈ pySentences text.data, pyStrip s = s ∧ s ≠ [] := by
  have h := classify_foldl (pySentences text.data) ⟨[], [], []⟩
  exact ⟨by simpa [classify_clauses] using h.1,
         by simpa [classify_clauses] using h.2.1,
         by simpa [classify_clauses] using h.2.2,
         pySentences_strip text.data⟩

/-- Witness for C3 at a concrete text and sentence. -/
theorem c3_classify_first_match_witness :
    ("The contractor shall not subcontract".data ∈
        pySentences "The contractor shall not subcontract. The work may begin.".data) ∧
    (pyStrip "The contractor shall not subcontract".data
        = "The contractor shall not subcontract".data ∧
     "The contractor shall not subcontract".data ≠ []) :=
  ⟨by decide,
   (c3_classify_first_match "The contractor shall not subcontract. The work may begin.").2.2.2
     "The contractor shall not subcontract".data (by decide)⟩

/-- Claim C9: `detect_ambiguous_terms` produces exactly one flag per split
sentence containing at least one vague term (case-insensitive substring
matching), the flag lists all matched terms, sentences with none yield no
flag, and repeated sentences are not deduplicated (the flags are a map over
the filtered sentence list, preserving multiplicity). -/
theorem c9_ambiguity_flags (text : String) :
    (detect_ambiguous_terms text
      = ((pySentences text.data).filter (fun s => !(foundTermsIn s).isEmpty)).map (fun s =>
          { sentence := String.mk s, terms := foundTermsIn s
          , concern := "Vague language may lead to disputes" })) ∧
    (detect_ambiguous_terms text).length
      = ((pySentences text.data).filter (fun s => !(foundTermsIn s).isEmpty)).length := by
  have h := ambiguity_foldl (pySentences text.data) []
  constructor
  · simpa [detect_ambiguous_terms] using h
  · simp [detect_ambiguous_terms, h]

/-! ### Compliance checking (claim C6) -/


/-- Claim C6: `check_indian_compliance` returns exactly four results in the
fixed order consideration, free_consent, competent_parties, lawful_object
regardless of the text; an element whose regex finds no match gets status
MISSING, severity high and a non-empty note, while an element whose regex
matches gets status PRESENT, severity none and no note. -/
theorem c6_compliance_order_and_fields (text contract_type : String) :
    ((check_indian_compliance text contract_type).map (fun c => c.element)
      = ["consideration", "free_consent", "competent_parties", "lawful_object"]) ∧
    (check_indian_compliance text contract_type).length = 4 ∧
    ∀ pr ∈ (check_indian_compliance text contract_type).zip
        (essential_elements.map (fun ep => (ep.1, reSearch ep.2 text.data))),
      pr.1.element = pr.2.1 ∧
      ((pr.2.2 = true ∧ pr.1.status = "PRESENT" ∧ pr.1.severity = "none" ∧
          pr.1.note = none) ∨
       (pr.2.2 = false ∧ pr.1.status = "MISSING" ∧ pr.1.severity = "high" ∧
          (∃ n, pr.1.note = some n ∧ n ≠ ""))) := by
  refine ⟨?_, ?_, ?_⟩
  · rw [check_indian_compliance, List.map_map]
    have hn : essential_elements.map (fun ep => ep.1)
        = ["consideration", "free_consent", "competent_parties", "lawful_object"] := by
      simp [essential_elements]
    rw [← hn]
    apply List.map_congr_left
    intro ep _
    by_cases h : reSearch ep.2 text.data <;> simp [h]
  · simp [check_indian_compliance, essential_elements]
  · intro pr hpr
    rw [check_indian_compliance, List.zip_map'] at hpr
    rw [List.mem_map] at hpr
    obtain ⟨ep, _, rfl⟩ := hpr
    by_cases h : reSearch ep.2 text.data
    · exact ⟨by simp [h], Or.inl (by simp [h])⟩
    · refine ⟨by simp [h], Or.inr ?_⟩
      refine ⟨by simp [h], by simp [h], by simp [h], ?_⟩
      refine ⟨"Contract should explicitly mention " ++ ep.1 ++
        " as per Section 10, Indian Contract Act", by simp [h], ?_⟩
      intro hcon
      have hlen := congrArg String.length hcon
      rw [String.length_append, String.length_append] at hlen
      have h1 : ("Contract should explicitly mention " : String).length = 35 := by decide
      have h2 : (" as per Section 10, Indian Contract Act" : String).length = 39 := by decide
      have h3 : ("" : String).length = 0 := by decide
      omega

/-- Witness for C6 on the empty text, where every element is missing. -/
theorem c6_compliance_witness :
    (({ element := "consideration", status := "MISSING", severity := "high"
      , note := some "Contract should explicitly mention consideration as per Section 10, Indian Contract Act" } : ComplianceResult),
     (("consideration" : String), false)) ∈
      (check_indian_compliance "" "").zip
        (essential_elements.map (fun ep => (ep.1, reSearch ep.2 "".data))) ∧
    (("consideration" : String) = "consideration" ∧
     ((false = true ∧ ("MISSING" : String) = "PRESENT" ∧ ("high" : String) = "none" ∧
         (some "Contract should explicitly mention consideration as per Section 10, Indian Contract Act" = (none : Option String))) ∨
      (false = false ∧ ("MISSING" : String) = "MISSING" ∧ ("high" : String) = "high" ∧
         (∃ n, some "Contract should explicitly mention consideration as per Section 10, Indian Contract Act" = some n ∧ n ≠ "")))) :=
  ⟨by decide,
   (c6_compliance_order_and_fields "" "").2.2
     (({ element := "consideration", status := "MISSING", severity := "high"
       , note := some "Contract should explicitly mention consideration as per Section 10, Indian Contract Act" } : ComplianceResult),
      (("consideration" : String), false)) (by decide)⟩

/-! ### Risk scanner context windows (claim C8) -/


lemma head?_mem {α : Type} (l : List α) (a : α) (h : l.head? = some a) : a ∈ l := by
  cases l with
  | nil => simp at h
  | cons x t =>
      simp only [List.head?_cons, Option.some.injEq] at h
      rw [← h]
      exact List.mem_cons_self x t

lemma reMatches_suffix (fuel : Nat) :
    ∀ (re : RE) (s t : MState), t ∈ reMatches fuel re s → t.rest <:+ s.rest := by
  induction fuel with
  | zero =>
      intro re s t ht
      cases re with
      | eps => simp [reMatches] at ht; rw [ht]
      | chr p =>
          simp only [reMatches] at ht
          cases hrest : s.rest with
          | nil => rw [hrest] at ht; simp at ht
          | cons c r =>
              rw [hrest] at ht
              by_cases hp : p c
              · simp [hp] at ht
                rw [ht]
                exact List.suffix_cons c r
              · simp [hp] at ht
      | seq a b => simp [reMatches] at ht
      | alt a b => simp [reMatches] at ht
      | star a => simp [reMatches] at ht; rw [ht]
      | group n a => simp [reMatches] at ht
      | bound =>
          simp only [reMatches] at ht
          by_cases hb : wordBoundary s.rev.head? s.rest.head? = true
          · rw [if_pos hb] at ht; simp at ht; rw [ht]
          · rw [if_neg hb] at ht; simp at ht
  | succ f ih =>
      intro re s t ht
      cases re with
      | eps => simp [reMatches] at ht; rw [ht]
      | chr p =>
          simp only [reMatches] at ht
          cases hrest : s.rest with
          | nil => rw [hrest] at ht; simp at ht
          | cons c r =>
              rw [hrest] at ht
              by_cases hp : p c
              · simp [hp] at ht
                rw [ht]
                exact List.suffix_cons c r
              · simp [hp] at ht
      | seq a b =>
          simp only [reMatches, List.mem_flatMap] at ht
          obtain ⟨u, hu, htu⟩ := ht
          exact (ih b u t htu).trans (ih a s u hu)
      | alt a b =>
          simp only [reMatches, List.mem_append] at ht
          rcases ht with h | h
          · exact ih a s t h
          · exact ih b s t h
      | star a =>
          simp only [reMatches, List.mem_append] at ht
          rcases ht with h | h
          · rw [List.mem_flatMap] at h
            obtain ⟨u, hu, htu⟩ := h
            rw [List.mem_filter] at hu
            exact (ih (RE.star a) u t htu).trans (ih a s u hu.1)
          · simp at h; rw [h]
      | group n a =>
          simp only [reMatches, List.mem_map] at ht
          obtain ⟨u, hu, rfl⟩ := ht
          exact ih a s u hu
      | bound =>
          simp only [reMatches] at ht
          by_cases hb : wordBoundary s.rev.head? s.rest.head? = true
          · rw [if_pos hb] at ht; simp at ht; rw [ht]
          · rw [if_neg hb] at ht; simp at ht

lemma reFirst_len (re : RE) (rev rest : List Char) (st : MState)
    (h : reFirst re rev rest = some st) : st.rest.length ≤ rest.length := by
  have hmem : st ∈ reMatches (matchFuel rest.length) re ⟨rev, rest, []⟩ :=
    head?_mem _ _ h
  exact (reMatches_suffix _ _ _ _ hmem).length_le

lemma scanAux_le (fuel : Nat) :
    ∀ (re : RE) (rev rest : List Char) (pos n : Nat), rest.length + pos = n →
      ∀ m ∈ scanAux fuel re rev rest pos, m.pos + m.len ≤ n := by
  induction fuel with
  | zero => intro re rev rest pos n _ m hm; simp [scanAux] at hm
  | succ f ih =>
      intro re rev rest pos n hn m hm
      simp only [scanAux] at hm
      cases hfst : reFirst re rev rest with
      | some st =>
          rw [hfst] at hm
          simp only [List.mem_cons] at hm
          rcases hm with rfl | hm
          · have := reFirst_len re rev rest st hfst
            simp only []
            omega
          · by_cases he : rest.isEmpty
            · rw [if_pos he] at hm
              simp at hm
            · rw [if_neg he] at hm
              have hne : rest.length ≠ 0 := by
                intro h0
                exact he (List.isEmpty_iff_length_eq_zero.mpr h0)
              have hlen := reFirst_len re rev rest st hfst
              refine ih re _ _ _ n ?_ m hm
              rw [List.length_drop]
              omega
      | none =>
          rw [hfst] at hm
          cases rest with
          | nil => simp at hm
          | cons c t2 =>
              refine ih re _ _ _ n ?_ m hm
              simp at hn ⊢
              omega

lemma pyScan_le (re : RE) (text : List Char) :
    ∀ m ∈ pyScan re text, m.pos + m.len ≤ text.length :=
  fun m hm => scanAux_le (text.length + 2) re [] text 0 text.length (by simp) m hm

lemma tierFindings_mem (tbl : List (String × List RE)) (text : List Char) (f : RiskFinding)
    (hf : f ∈ tierFindings tbl text) :
    ∃ cat m, f = mkFinding text cat m ∧ m.pos + m.len ≤ text.length := by
  simp only [tierFindings, List.mem_flatMap, List.mem_map] at hf
  obtain ⟨cp, _, re, _, m, hm, rfl⟩ := hf
  exact ⟨cp.1, m, rfl, pyScan_le re text m hm⟩

lemma mkFinding_props (text : List Char) (cat : String) (m : ScanM)
    (hm : m.pos + m.len ≤ text.length) :
    (mkFinding text cat m).position + (mkFinding text cat m).matched_text.length
        ≤ text.length ∧
    (mkFinding text cat m).matched_text
      = String.mk (sliceL text (mkFinding text cat m).position
          ((mkFinding text cat m).position + (mkFinding text cat m).matched_text.length)) ∧
    (mkFinding text cat m).context
      = String.mk (sliceL text ((mkFinding text cat m).position - 50)
          (min text.length
            ((mkFinding text cat m).position + (mkFinding text cat m).matched_text.length
              + 50))) := by
  have hlen : (mkFinding text cat m).matched_text.length = m.len := by
    show (String.mk (sliceL text m.pos (m.pos + m.len))).length = m.len
    show (sliceL text m.pos (m.pos + m.len)).length = m.len
    simp only [sliceL, List.length_drop, List.length_take]
    omega
  have hpos : (mkFinding text cat m).position = m.pos := rfl
  refine ⟨?_, ?_, ?_⟩
  · rw [hlen, hpos]
    exact hm
  · rw [hlen, hpos]
    rfl
  · rw [hlen, hpos]
    rfl

/-- Claim C8: every RiskFinding emitted by the risk scanner has `context`
equal to the slice of the text from 50 characters before the match start to
50 characters after the match end, clamped to the text bounds, and
`position` equal to the match's character offset, so the text at that offset
equals the matched text. -/
theorem c8_context_window (text : String) (entities : Entities) (f : RiskFinding)
    (hf : f ∈ (analyze_contract text entities).high ++
          (analyze_contract text entities).medium ++ (analyze_contract text entities).low) :
    f.position + f.matched_text.length ≤ text.data.length ∧
    f.matched_text
      = String.mk (sliceL text.data f.position (f.position + f.matched_text.length)) ∧
    f.context
      = String.mk (sliceL text.data (f.position - 50)
          (min text.data.length (f.position + f.matched_text.length + 50))) := by
  have e1 : (analyze_contract text entities).high = tierFindings risk_patterns_high text.data :=
    rfl
  have e2 : (analyze_contract text entities).medium
      = tierFindings risk_patterns_medium text.data := rfl
  have e3 : (analyze_contract text entities).low = tierFindings risk_patterns_low text.data :=
    rfl
  rw [e1, e2, e3, List.mem_append, List.mem_append] at hf
  have hspec : ∃ cat m, f = mkFinding text.data cat m ∧ m.pos + m.len ≤ text.data.length := by
    rcases hf with (h | h) | h
    · exact tierFindings_mem _ _ f h
    · exact tierFindings_mem _ _ f h
    · exact tierFindings_mem _ _ f h
  obtain ⟨cat, m, rfl, hm⟩ := hspec
  exact mkFinding_props text.data cat m hm

/-- Witness for C8: the single high finding on the text
`terminate at will`. -/
theorem c8_context_window_witness :
    (({ category := "unilateral_termination", matched_text := "terminate at will"
      , context := "terminate at will", position := 0 } : RiskFinding) ∈
      (analyze_contract "terminate at will" ⟨[], [], [], [], [], []⟩).high ++
      (analyze_contract "terminate at will" ⟨[], [], [], [], [], []⟩).medium ++
      (analyze_contract "terminate at will" ⟨[], [], [], [], [], []⟩).low) ∧
    (0 + ("terminate at will" : String).length ≤ "terminate at will".data.length ∧
     ("terminate at will" : String)
       = String.mk (sliceL "terminate at will".data 0
           (0 + ("terminate at will" : String).length)) ∧
     ("terminate at will" : String)
       = String.mk (sliceL "terminate at will".data (0 - 50)
           (min "terminate at will".data.length
             (0 + ("terminate at will" : String).length + 50)))) :=
  ⟨by decide,
   c8_context_window "terminate at will" ⟨[], [], [], [], [], []⟩
     { category := "unilateral_termination", matched_text := "terminate at will"
     , context := "terminate at will", position := 0 } (by decide)⟩
